import Mathlib

/-!
Verification of the task-manager HTTP API (Flask + MongoDB).

Shallow embedding of `app/services/task_service.py`, `app/models/user.py`,
`app/routes/tasks.py`, `app/routes/auth.py` and `app/utils/validators.py`.
The Mongo collections are modelled as association lists from ObjectId
strings to documents; every service operation passes the store explicitly
and returns the (possibly unchanged) store together with an `Except`
value standing for Python's return/raise.
-/

set_option autoImplicit false

/-- Python exceptions that can cross a service boundary.
`customException msg code` is `app.utils.exceptions.CustomException`;
`invalidId` is `bson.errors.InvalidId` (raised by `ObjectId(...)` and not a
`CustomException`); `valueError` is a built-in `ValueError` (e.g. from tuple
unpacking).  The global error handler in `app/__init__.py` maps a
`CustomException` to its own `status_code` and everything else to 500. -/
inductive Err where
  | customException (message : String) (statusCode : Nat)
  | invalidId (s : String)
  | valueError (message : String)
  deriving Repr, DecidableEq

/-- HTTP status produced by the global error handler in `app/__init__.py`:
a `CustomException` keeps its embedded status code, any other exception is
surfaced as 500. -/
def errorStatus : Err → Nat
  | .customException _ code => code
  | .invalidId _ => 500
  | .valueError _ => 500

/-- Model of `bson.ObjectId` construction from a URL string: it succeeds
exactly on 24-character hexadecimal strings (either case). -/
def isHexChar (c : Char) : Bool :=
  c.isDigit || ('a' ≤ c && c ≤ 'f') || ('A' ≤ c && c ≤ 'F')

/-- `ObjectId(s)` succeeds iff `s` is a 24-character hex string. -/
def isValidObjectId (s : String) : Bool :=
  s.length == 24 && s.data.all isHexChar

def charLower (c : Char) : Char :=
  if 'A' ≤ c && c ≤ 'Z' then Char.ofNat (c.toNat + 32) else c

/-- Canonical (lowercase) form of an ObjectId string: `str(ObjectId(s))`
lowercases the hex digits, so two case-variants denote the same id. -/
def oidCanon (s : String) : String :=
  ⟨s.data.map charLower⟩

/-- The message of `bson.errors.InvalidId` (abridged). -/
def invalidIdMessage (s : String) : String :=
  "Invalid task ID format: " ++ s ++ " is not a valid ObjectId"

/-- Python `str.strip()`: drop leading and trailing whitespace. -/
def pyStrip (s : String) : String :=
  ⟨((s.data.dropWhile Char.isWhitespace).reverse.dropWhile Char.isWhitespace).reverse⟩

/-- `app/utils/validators.py::validate_task_data`: title stripped length ≥ 3
and status in the allowed set. -/
def allowedStatuses : List String := ["pending", "in-progress", "completed"]

def validate_task_data (title status : String) : Bool :=
  if (pyStrip title).length < 3 then false
  else allowedStatuses.contains status

/-- `app/utils/validators.py::validate_username` (stripped length ≥ 3).
Note: the registration path does not call it. -/
def validate_username (username : String) : Bool :=
  !(username = "") && 3 ≤ (pyStrip username).length

/-- `app/utils/validators.py::validate_password` (stripped length ≥ 8).
Note: the registration path does not call it. -/
def validate_password (password : String) : Bool :=
  !(password = "") && 8 ≤ (pyStrip password).length

/-! ## Task store -/

/-- A document in the `tasks` collection, as inserted by
`TaskService.create_task`. -/
structure TaskDoc where
  title : String
  description : String
  status : String
  user_id : String
  deriving Repr, DecidableEq

/-- The `tasks` collection: ObjectId string keyed documents. -/
abbrev TaskStore := List (String × TaskDoc)

/-- Detail projection returned by `get_task_by_id`. -/
structure TaskView where
  id : String
  title : String
  description : String
  status : String
  deriving Repr, DecidableEq

/-- List projection returned by `get_user_tasks` (no description). -/
structure TaskListItem where
  id : String
  title : String
  status : String
  deriving Repr, DecidableEq

/-- `find_one({'_id': oid, 'user_id': uid})`: first document matching both
the primary key and the owner filter. -/
def tasksFindOne : TaskStore → String → String → Option TaskDoc
  | [], _, _ => none
  | (k, d) :: rest, oid, uid =>
    if k = oid ∧ d.user_id = uid then some d else tasksFindOne rest oid uid

/-- The fields of an update dictionary (`title`, `description`, `status`,
as documented for PUT/PATCH bodies); `none` means the key is absent. -/
structure Updates where
  title? : Option String := none
  description? : Option String := none
  status? : Option String := none
  deriving Repr, DecidableEq

/-- Mongo `$set`: overwrite exactly the fields present in the update. -/
def applySet (d : TaskDoc) (u : Updates) : TaskDoc :=
  { title := u.title?.getD d.title
    description := u.description?.getD d.description
    status := u.status?.getD d.status
    user_id := d.user_id }

/-- `update_one({'_id': oid, 'user_id': uid}, {'$set': u})`: apply `$set`
to the first matching document, leave the rest untouched. -/
def tasksUpdateOne : TaskStore → String → String → Updates → TaskStore
  | [], _, _, _ => []
  | (k, d) :: rest, oid, uid, u =>
    if k = oid ∧ d.user_id = uid then (k, applySet d u) :: rest
    else (k, d) :: tasksUpdateOne rest oid uid u

/-- `delete_one({'_id': oid, 'user_id': uid})`: remove the first matching
document; the Bool is `deleted_count > 0`. -/
def tasksDeleteOne : TaskStore → String → String → Bool × TaskStore
  | [], _, _ => (false, [])
  | (k, d) :: rest, oid, uid =>
    if k = oid ∧ d.user_id = uid then (true, rest)
    else
      let r := tasksDeleteOne rest oid uid
      (r.1, (k, d) :: r.2)

/-! ## TaskService (`app/services/task_service.py`) -/

/-- `TaskService.create_task`: re-validate, then `insert_one` a document
with the caller as `user_id` and return the new id as a string.  `newId` is
the ObjectId the store generates for the insert. -/
def TaskService.create_task (store : TaskStore) (user_id title description status newId : String) :
    Except Err String × TaskStore :=
  if validate_task_data title status = false then
    (.error (.customException "Invalid task data" 400), store)
  else
    (.ok newId, store ++ [(newId, ⟨title, description, status, user_id⟩)])

/-- `TaskService.get_user_tasks`: all of the caller's documents projected
to `{id, title, status}`. -/
def TaskService.get_user_tasks (store : TaskStore) (user_id : String) : List TaskListItem :=
  (store.filter fun kv => kv.2.user_id = user_id).map fun kv =>
    ⟨kv.1, kv.2.title, kv.2.status⟩

/-- `TaskService.get_task_by_id`: the `try` block turns an `InvalidId` from
`ObjectId(task_id)` into a `CustomException(..., 400)`; an ownership-scoped
`find_one` miss is a `CustomException(..., 404)`; otherwise the detail
projection is returned. -/
def TaskService.get_task_by_id (store : TaskStore) (user_id task_id : String) :
    Except Err TaskView :=
  if isValidObjectId task_id = false then
    .error (.customException (invalidIdMessage task_id) 400)
  else
    match tasksFindOne store (oidCanon task_id) user_id with
    | none => .error (.customException "Task not found or access denied" 404)
    | some t => .ok ⟨oidCanon task_id, t.title, t.description, t.status⟩

/-- Is a `status` key present with a value outside the allowed set?
(the first check of `TaskService.update_task`). -/
def statusInvalid (u : Updates) : Bool :=
  match u.status? with
  | some s => !(allowedStatuses.contains s)
  | none => false

/-- `TaskService.update_task` after the status-enum check: look the task up
(ownership-scoped, raising), `update_one` with `$set`, and return the
refreshed projection.  The Python `if not existing_task` branch is dead:
`get_task_by_id` raises instead of returning a falsy value. -/
def TaskService.updateTaskAfterCheck (store : TaskStore) (user_id task_id : String)
    (updates : Updates) : Except Err TaskView × TaskStore :=
  match TaskService.get_task_by_id store user_id task_id with
  | .error e => (.error e, store)
  | .ok _ =>
    let store2 := tasksUpdateOne store (oidCanon task_id) user_id updates
    match TaskService.get_task_by_id store2 user_id task_id with
    | .error e => (.error e, store2)
    | .ok v => (.ok v, store2)

/-- `TaskService.update_task`: status-enum check first, then lookup, then
`$set` merge and refreshed projection. -/
def TaskService.update_task (store : TaskStore) (user_id task_id : String) (updates : Updates) :
    Except Err TaskView × TaskStore :=
  if statusInvalid updates then
    (.error (.customException "Invalid status value" 400), store)
  else
    TaskService.updateTaskAfterCheck store user_id task_id updates

/-- `TaskService.delete_task`: `ObjectId(task_id)` is NOT wrapped in a
`try`, so a malformed id raises `bson.errors.InvalidId` out of the service;
otherwise an ownership-scoped `delete_one` reports whether a row was
removed. -/
def TaskService.delete_task (store : TaskStore) (user_id task_id : String) :
    Except Err Bool × TaskStore :=
  if isValidObjectId task_id = false then
    (.error (.invalidId task_id), store)
  else
    let r := tasksDeleteOne store (oidCanon task_id) user_id
    (.ok r.1, r.2)

/-! ## Task routes (`app/routes/tasks.py`) -/

/-- JSON body of `POST /tasks` (`data.get` yields `none` for absent keys). -/
structure CreateBody where
  title? : Option String := none
  description? : Option String := none
  status? : Option String := none
  deriving Repr, DecidableEq

/-- Python tuple unpacking `a, b = s` of a string: succeeds only when the
string has exactly two characters, otherwise raises `ValueError`. -/
def unpackPair (s : String) : Except Err (String × String) :=
  if s.length = 2 then .ok (s.take 1, s.drop 1)
  else if 2 < s.length then .error (.valueError "too many values to unpack (expected 2)")
  else .error (.valueError "not enough values to unpack (expected 2)")

/-- `POST /tasks` handler: default `description` to `""` and `status` to
`"pending"`, validate, call the service, then `task_id, error = ...` — a
tuple unpacking of the returned id string. -/
def route_create_task (store : TaskStore) (user_id : String) (body : CreateBody)
    (newId : String) : Except Err (String × Nat) × TaskStore :=
  let title := (body.title?).getD ""
  let description := (body.description?).getD ""
  let status := (body.status?).getD "pending"
  if validate_task_data title status = false then
    (.error (.customException "Invalid task data" 400), store)
  else
    match TaskService.create_task store user_id title description status newId with
    | (.error e, store2) => (.error e, store2)
    | (.ok tid, store2) =>
      match unpackPair tid with
      | .error e => (.error e, store2)
      | .ok (task_id, err) =>
        if err = "" then (.ok (task_id, 201), store2)
        else (.error (.customException err 400), store2)

/-- `GET /tasks/<task_id>` handler: the service either raises or returns a
truthy dict, so the handler's `if not task` branch is dead. -/
def route_get_task (store : TaskStore) (user_id task_id : String) :
    Except Err (TaskView × Nat) :=
  match TaskService.get_task_by_id store user_id task_id with
  | .error e => .error e
  | .ok v => .ok (v, 200)

/-- `DELETE /tasks/<task_id>` handler: a `False` from the service becomes
`CustomException("Task not found", 404)`; any exception from the service
(including `InvalidId`) propagates. -/
def route_delete_task (store : TaskStore) (user_id task_id : String) :
    Except Err (String × Nat) × TaskStore :=
  match TaskService.delete_task store user_id task_id with
  | (.error e, store2) => (.error e, store2)
  | (.ok success, store2) =>
    if success = false then (.error (.customException "Task not found" 404), store2)
    else (.ok ("Task deleted", 200), store2)

/-! ## Users (`app/models/user.py`, `app/routes/auth.py`) -/

/-- A document in the `users` collection. -/
structure UserDoc where
  username : String
  password_hash : String
  deriving Repr, DecidableEq

abbrev UserStore := List (String × UserDoc)

/-- Abstract model of `werkzeug.security.generate_password_hash` (an
external collaborator; only its use as an opaque stored value matters). -/
def generate_password_hash (p : String) : String :=
  "hashed:" ++ p

/-- `find_one({'username': username})` on the `users` collection. -/
def usersFindByUsername : UserStore → String → Option UserDoc
  | [], _ => none
  | (_, d) :: rest, u =>
    if d.username = u then some d else usersFindByUsername rest u

/-- `User.create`: raw (untrimmed) length checks, check-then-insert
uniqueness, hash and insert.  `newId` is the id the store generates. -/
def User.create (store : UserStore) (username password newId : String) :
    Except Err (String × UserDoc) × UserStore :=
  if username.length < 3 then
    (.error (.customException "Username must be at least 3 characters" 400), store)
  else if password.length < 8 then
    (.error (.customException "Password must be at least 8 characters" 400), store)
  else
    match usersFindByUsername store username with
    | some _ => (.error (.customException "Username already exists" 409), store)
    | none =>
      let doc : UserDoc := ⟨username, generate_password_hash password⟩
      (.ok (newId, doc), store ++ [(newId, doc)])

/-- `POST /register` handler: `data.get` may yield `none`; the handler
checks falsiness and raw length, then calls `User.create` and answers 201. -/
def route_register (store : UserStore) (username? password? : Option String)
    (newId : String) : Except Err (String × Nat) × UserStore :=
  let username := username?.getD ""
  let password := password?.getD ""
  if username = "" ∨ username.length < 3 then
    (.error (.customException "Username must be at least 3 characters" 400), store)
  else if password = "" ∨ password.length < 8 then
    (.error (.customException "Password must be at least 8 characters" 400), store)
  else
    match User.create store username password newId with
    | (.error e, store2) => (.error e, store2)
    | (.ok _, store2) => (.ok ("User created", 201), store2)

/-- Mongo keeps `_id` unique within a collection. -/
def NodupKeys (store : TaskStore) : Prop :=
  store.Pairwise fun kv kv2 => kv.1 ≠ kv2.1

/-- Number of stored user documents carrying a given username. -/
def countUsername (store : UserStore) (u : String) : Nat :=
  (store.filter fun kv => kv.2.username = u).length

/-- HTTP status of a service outcome: `none` when it did not raise,
otherwise the status the global error handler would answer with. -/
def exceptStatus {α : Type} : Except Err α → Option Nat
  | .error e => some (errorStatus e)
  | .ok _ => none

/-! ## Store lemmas -/

theorem keys_unique {store : TaskStore} {k : String} {d1 d2 : TaskDoc}
    (h : NodupKeys store) (h1 : (k, d1) ∈ store) (h2 : (k, d2) ∈ store) : d1 = d2 := by
  induction store with
  | nil => cases h1
  | cons kv rest ih =>
    rcases List.pairwise_cons.mp h with ⟨hhead, htail⟩
    rcases List.mem_cons.mp h1 with h1 | h1 <;> rcases List.mem_cons.mp h2 with h2 | h2
    · simpa using congrArg Prod.snd (h1.trans h2.symm)
    · exact absurd (congrArg Prod.fst h1.symm) (hhead (k, d2) h2)
    · exact absurd (congrArg Prod.fst h2.symm) (hhead (k, d1) h1)
    · exact ih htail h1 h2

theorem tasksFindOne_eq_none_iff {store : TaskStore} {oid uid : String} :
    tasksFindOne store oid uid = none ↔ ∀ d : TaskDoc, (oid, d) ∈ store → d.user_id ≠ uid := by
  induction store with
  | nil => simp [tasksFindOne]
  | cons kv rest ih =>
    obtain ⟨k, d⟩ := kv
    by_cases hmatch : k = oid ∧ d.user_id = uid
    · simp only [tasksFindOne, if_pos hmatch]
      constructor
      · intro h; cases h
      · intro h; exact absurd hmatch.2 (h d (by simp [hmatch.1]))
    · simp only [tasksFindOne, if_neg hmatch]
      rw [ih]
      constructor
      · intro h e he
        rcases List.mem_cons.mp he with he | he
        · intro huid
          exact hmatch ⟨(Prod.mk.injEq _ _ _ _ ▸ he).1.symm, by cases he; exact huid⟩
        · exact h e he
      · intro h e he; exact h e (List.mem_cons_of_mem _ he)

theorem tasksFindOne_eq_none_of_no_key {store : TaskStore} {oid uid : String}
    (h : ∀ kv ∈ store, kv.1 ≠ oid) : tasksFindOne store oid uid = none := by
  rw [tasksFindOne_eq_none_iff]
  intro d hd
  exact absurd rfl (h _ hd)

theorem tasksFindOne_eq_some_of_mem {store : TaskStore} {oid uid : String} {d : TaskDoc}
    (hnd : NodupKeys store) (hmem : (oid, d) ∈ store) (hown : d.user_id = uid) :
    tasksFindOne store oid uid = some d := by
  induction store with
  | nil => cases hmem
  | cons kv rest ih =>
    obtain ⟨k, e⟩ := kv
    rcases List.pairwise_cons.mp hnd with ⟨hhead, htail⟩
    rcases List.mem_cons.mp hmem with hm | hm
    · have hk : oid = k := congrArg Prod.fst hm
      have he : d = e := congrArg Prod.snd hm
      subst hk; subst he
      simp [tasksFindOne, hown]
    · have hk : k ≠ oid := hhead (oid, d) hm
      have hcond : ¬(k = oid ∧ e.user_id = uid) := fun hc => hk hc.1
      simp only [tasksFindOne, if_neg hcond]
      exact ih htail hm

theorem tasksFindOne_append_fresh {store : TaskStore} {oid uid : String} {d : TaskDoc}
    (h : ∀ kv ∈ store, kv.1 ≠ oid) :
    tasksFindOne (store ++ [(oid, d)]) oid uid =
      if d.user_id = uid then some d else none := by
  induction store with
  | nil => simp [tasksFindOne]
  | cons kv rest ih =>
    obtain ⟨k, e⟩ := kv
    have hk : k ≠ oid := h (k, e) (List.mem_cons_self _ _)
    have hcond : ¬(k = oid ∧ e.user_id = uid) := fun hc => hk hc.1
    simp only [List.cons_append, tasksFindOne, if_neg hcond]
    exact ih fun kv hkv => h kv (List.mem_cons_of_mem _ hkv)

theorem applySet_user_id (d : TaskDoc) (u : Updates) : (applySet d u).user_id = d.user_id := rfl

theorem tasksFindOne_updateOne_self (store : TaskStore) (oid uid : String) (u : Updates) :
    tasksFindOne (tasksUpdateOne store oid uid u) oid uid =
      (tasksFindOne store oid uid).map fun d => applySet d u := by
  induction store with
  | nil => simp [tasksFindOne, tasksUpdateOne]
  | cons kv rest ih =>
    obtain ⟨k, d⟩ := kv
    by_cases hmatch : k = oid ∧ d.user_id = uid
    · have hmatch2 : k = oid ∧ (applySet d u).user_id = uid := ⟨hmatch.1, hmatch.2⟩
      simp only [tasksUpdateOne, if_pos hmatch, tasksFindOne, if_pos hmatch2,
        if_pos hmatch]
      rfl
    · have hmatch2 : ¬(k = oid ∧ d.user_id = uid) := hmatch
      simp only [tasksUpdateOne, if_neg hmatch2, tasksFindOne, if_neg hmatch2]
      exact ih

theorem tasksFindOne_updateOne_other {store : TaskStore} {oid uid oid2 uid2 : String}
    {u : Updates} (hne : oid2 ≠ oid) :
    tasksFindOne (tasksUpdateOne store oid uid u) oid2 uid2 =
      tasksFindOne store oid2 uid2 := by
  induction store with
  | nil => simp [tasksFindOne, tasksUpdateOne]
  | cons kv rest ih =>
    obtain ⟨k, d⟩ := kv
    by_cases hmatch : k = oid ∧ d.user_id = uid
    · have hcond : ¬(k = oid2 ∧ (applySet d u).user_id = uid2) :=
        fun hc => hne (hc.1 ▸ hmatch.1)
      have hcond2 : ¬(k = oid2 ∧ d.user_id = uid2) := fun hc => hne (hc.1 ▸ hmatch.1)
      simp only [tasksUpdateOne, if_pos hmatch, tasksFindOne, if_neg hcond, if_neg hcond2]
    · simp only [tasksUpdateOne, if_neg hmatch, tasksFindOne]
      by_cases hmatch2 : k = oid2 ∧ d.user_id = uid2
      · simp only [if_pos hmatch2]
      · simp only [if_neg hmatch2]
        exact ih

theorem tasksDeleteOne_miss {store : TaskStore} {oid uid : String}
    (h : ∀ d : TaskDoc, (oid, d) ∈ store → d.user_id ≠ uid) :
    tasksDeleteOne store oid uid = (false, store) := by
  induction store with
  | nil => rfl
  | cons kv rest ih =>
    obtain ⟨k, d⟩ := kv
    have hcond : ¬(k = oid ∧ d.user_id = uid) := by
      rintro ⟨hk, hd⟩
      exact h d (hk ▸ List.mem_cons_self _ _) hd
    have ihr : tasksDeleteOne rest oid uid = (false, rest) :=
      ih fun e he => h e (List.mem_cons_of_mem _ he)
    simp [tasksDeleteOne, if_neg hcond, ihr]

theorem tasksDeleteOne_hit {store : TaskStore} {oid uid : String} {d : TaskDoc}
    (hnd : NodupKeys store) (hmem : (oid, d) ∈ store) (hown : d.user_id = uid) :
    (tasksDeleteOne store oid uid).1 = true ∧
    (∀ uid2, tasksFindOne (tasksDeleteOne store oid uid).2 oid uid2 = none) ∧
    (∀ oid2, oid2 ≠ oid → ∀ uid2,
      tasksFindOne (tasksDeleteOne store oid uid).2 oid2 uid2 =
        tasksFindOne store oid2 uid2) := by
  induction store with
  | nil => cases hmem
  | cons kv rest ih =>
    obtain ⟨k, e⟩ := kv
    rcases List.pairwise_cons.mp hnd with ⟨hhead, htail⟩
    rcases List.mem_cons.mp hmem with hm | hm
    · have hk : oid = k := congrArg Prod.fst hm
      have he : d = e := congrArg Prod.snd hm
      subst hk; subst he
      have hred : tasksDeleteOne ((oid, d) :: rest) oid uid = (true, rest) := by
        simp [tasksDeleteOne, hown]
      rw [hred]
      refine ⟨rfl, fun uid2 => ?_, fun oid2 hne uid2 => ?_⟩
      · exact tasksFindOne_eq_none_of_no_key fun kv hkv => Ne.symm (hhead kv hkv)
      · have hcond2 : ¬(oid = oid2 ∧ d.user_id = uid2) := fun hc => hne hc.1.symm
        simp [tasksFindOne, if_neg hcond2]
    · have hk : k ≠ oid := hhead (oid, d) hm
      have hcond : ¬(k = oid ∧ e.user_id = uid) := fun hc => hk hc.1
      obtain ⟨ih1, ih2, ih3⟩ := ih htail hm
      simp only [tasksDeleteOne, if_neg hcond]
      refine ⟨ih1, fun uid2 => ?_, fun oid2 hne uid2 => ?_⟩
      · have hcond2 : ¬(k = oid ∧ e.user_id = uid2) := fun hc => hk hc.1
        simp only [tasksFindOne, if_neg hcond2]
        exact ih2 uid2
      · by_cases hmatch : k = oid2 ∧ e.user_id = uid2
        · simp only [tasksFindOne, if_pos hmatch]
        · simp only [tasksFindOne, if_neg hmatch]
          exact ih3 oid2 hne uid2

theorem usersFindByUsername_eq_none_iff {store : UserStore} {u : String} :
    usersFindByUsername store u = none ↔ ∀ kv ∈ store, kv.2.username ≠ u := by
  induction store with
  | nil => simp [usersFindByUsername]
  | cons kv rest ih =>
    obtain ⟨i, d⟩ := kv
    by_cases hu : d.username = u
    · simp only [usersFindByUsername, if_pos hu]
      constructor
      · intro h; cases h
      · intro h; exact absurd hu (h (i, d) (List.mem_cons_self _ _))
    · simp only [usersFindByUsername, if_neg hu]
      rw [ih]
      constructor
      · intro h kv hkv
        rcases List.mem_cons.mp hkv with hkv | hkv
        · rw [hkv]; exact hu
        · exact h kv hkv
      · intro h kv hkv; exact h kv (List.mem_cons_of_mem _ hkv)

theorem usersFindByUsername_append_fresh {store : UserStore} {u i : String} {d : UserDoc}
    (h : usersFindByUsername store u = none) :
    usersFindByUsername (store ++ [(i, d)]) u =
      if d.username = u then some d else none := by
  induction store with
  | nil => simp [usersFindByUsername]
  | cons kv rest ih =>
    obtain ⟨j, e⟩ := kv
    by_cases hu : e.username = u
    · simp [usersFindByUsername, if_pos hu] at h
    · simp only [usersFindByUsername, if_neg hu] at h
      simp only [List.cons_append, usersFindByUsername, if_neg hu]
      exact ih h

theorem countUsername_append (store : UserStore) (u i : String) (d : UserDoc) :
    countUsername (store ++ [(i, d)]) u =
      countUsername store u + (if d.username = u then 1 else 0) := by
  by_cases hu : d.username = u
  · simp [countUsername, List.filter_append, hu]
  · simp [countUsername, List.filter_append, hu]

theorem get_user_tasks_id_ne {store : TaskStore} {oid uidA uidB : String} {d : TaskDoc}
    (hnd : NodupKeys store) (hmem : (oid, d) ∈ store) (hown : d.user_id = uidA)
    (hne : uidA ≠ uidB) :
    ∀ item ∈ TaskService.get_user_tasks store uidB, item.id ≠ oid := by
  intro item hitem heq
  simp only [TaskService.get_user_tasks, List.mem_map] at hitem
  obtain ⟨kv, hkv, hid⟩ := hitem
  rw [List.mem_filter] at hkv
  obtain ⟨hkvmem, hkvuser⟩ := hkv
  have hkey : kv.1 = oid := by rw [← hid] at heq; exact heq
  have hkv2 : (oid, kv.2) ∈ store := by
    have : kv = (oid, kv.2) := by rw [← hkey]
    exact this ▸ hkvmem
  have hdd : kv.2 = d := keys_unique hnd hkv2 hmem
  have huser : kv.2.user_id = uidB := of_decide_eq_true hkvuser
  exact hne (hown.symm.trans (hdd ▸ huser))

/-! ## Service-level characterizations -/

theorem get_task_by_id_malformed {store : TaskStore} {uid tid : String}
    (h : isValidObjectId tid = false) :
    TaskService.get_task_by_id store uid tid =
      .error (.customException (invalidIdMessage tid) 400) := by
  simp [TaskService.get_task_by_id, h]

theorem get_task_by_id_miss {store : TaskStore} {uid tid : String}
    (hval : isValidObjectId tid = true)
    (h : tasksFindOne store (oidCanon tid) uid = none) :
    TaskService.get_task_by_id store uid tid =
      .error (.customException "Task not found or access denied" 404) := by
  simp [TaskService.get_task_by_id, hval, h]

theorem get_task_by_id_found {store : TaskStore} {uid tid : String} {d : TaskDoc}
    (hval : isValidObjectId tid = true) (hcanon : oidCanon tid = tid)
    (hnd : NodupKeys store) (hmem : (tid, d) ∈ store) (hown : d.user_id = uid) :
    TaskService.get_task_by_id store uid tid =
      .ok ⟨tid, d.title, d.description, d.status⟩ := by
  have hfind : tasksFindOne store tid uid = some d :=
    tasksFindOne_eq_some_of_mem hnd hmem hown
  simp [TaskService.get_task_by_id, hval, hcanon, hfind]

theorem update_task_invalid_status {store : TaskStore} {uid tid : String} {u : Updates}
    {s : String} (hst : u.status? = some s) (hbad : allowedStatuses.contains s = false) :
    TaskService.update_task store uid tid u =
      (.error (.customException "Invalid status value" 400), store) := by
  have hsi : statusInvalid u = true := by
    unfold statusInvalid
    rw [hst]
    show (!allowedStatuses.contains s) = true
    rw [hbad]
    rfl
  simp [TaskService.update_task, hsi]

theorem update_task_lookup_error {store : TaskStore} {uid tid : String} {u : Updates} {e : Err}
    (hsi : statusInvalid u = false)
    (hget : TaskService.get_task_by_id store uid tid = .error e) :
    TaskService.update_task store uid tid u = (.error e, store) := by
  simp [TaskService.update_task, hsi, TaskService.updateTaskAfterCheck, hget]

theorem update_task_success {store : TaskStore} {uid tid : String} {d : TaskDoc} {u : Updates}
    (hsi : statusInvalid u = false)
    (hval : isValidObjectId tid = true) (hcanon : oidCanon tid = tid)
    (hnd : NodupKeys store) (hmem : (tid, d) ∈ store) (hown : d.user_id = uid) :
    TaskService.update_task store uid tid u =
      (.ok ⟨tid, (applySet d u).title, (applySet d u).description, (applySet d u).status⟩,
       tasksUpdateOne store tid uid u) := by
  have hget : TaskService.get_task_by_id store uid tid =
      .ok ⟨tid, d.title, d.description, d.status⟩ :=
    get_task_by_id_found hval hcanon hnd hmem hown
  have hfind2 : tasksFindOne (tasksUpdateOne store tid uid u) tid uid = some (applySet d u) := by
    rw [tasksFindOne_updateOne_self, tasksFindOne_eq_some_of_mem hnd hmem hown]
    rfl
  have hget2 : TaskService.get_task_by_id (tasksUpdateOne store tid uid u) uid tid =
      .ok ⟨tid, (applySet d u).title, (applySet d u).description, (applySet d u).status⟩ := by
    simp [TaskService.get_task_by_id, hval, hcanon, hfind2]
  simp [TaskService.update_task, hsi, TaskService.updateTaskAfterCheck, hget, hcanon, hget2]

theorem delete_task_malformed {store : TaskStore} {uid tid : String}
    (h : isValidObjectId tid = false) :
    TaskService.delete_task store uid tid = (.error (.invalidId tid), store) := by
  simp [TaskService.delete_task, h]

theorem delete_task_miss {store : TaskStore} {uid tid : String}
    (hval : isValidObjectId tid = true)
    (h : ∀ d : TaskDoc, (oidCanon tid, d) ∈ store → d.user_id ≠ uid) :
    TaskService.delete_task store uid tid = (.ok false, store) := by
  simp [TaskService.delete_task, hval, tasksDeleteOne_miss h]

/-! ## Claims -/

/-- C2, counterexample: the claim says a malformed `taskId` yields
`NotFoundError` (404), but `get_task_by_id("u1", "xyz")` raises a 400
`CustomException` from the `ObjectId` format check. -/
theorem C2_counterexample :
    exceptStatus (TaskService.get_task_by_id [] "u1" "xyz") = some 400 ∧
    (400 : Nat) ≠ 404 :=
  ⟨by rfl, by decide⟩

/-- C2 (amended): `getTask` fails with a 400 `CustomException` when the
`taskId` is malformed; it fails with `NotFoundError` (404) in exactly two
indistinguishable cases — id absent from the store, or the task owned by a
different user (one error value covers both) — and otherwise returns the
`{id, title, description, status}` projection. -/
theorem C2_get_task_characterization (store : TaskStore) (uid tid : String) :
    (isValidObjectId tid = false →
      TaskService.get_task_by_id store uid tid =
        .error (.customException (invalidIdMessage tid) 400)) ∧
    (isValidObjectId tid = true →
      (∀ d : TaskDoc, (oidCanon tid, d) ∈ store → d.user_id ≠ uid) →
      TaskService.get_task_by_id store uid tid =
        .error (.customException "Task not found or access denied" 404)) ∧
    (∀ d : TaskDoc, isValidObjectId tid = true → NodupKeys store →
      (oidCanon tid, d) ∈ store → d.user_id = uid →
      TaskService.get_task_by_id store uid tid =
        .ok ⟨oidCanon tid, d.title, d.description, d.status⟩) := by
  refine ⟨fun h => get_task_by_id_malformed h, fun hval h => ?_, fun d hval hnd hmem hown => ?_⟩
  · exact get_task_by_id_miss hval (tasksFindOne_eq_none_iff.mpr h)
  · have hfind : tasksFindOne store (oidCanon tid) uid = some d :=
      tasksFindOne_eq_some_of_mem hnd hmem hown
    simp [TaskService.get_task_by_id, hval, hfind]

/-- C2 witness: a task owned by "a1" is reported to "b1" with the same 404
error that an absent id would give. -/
theorem C2_witness :
    TaskService.get_task_by_id
      [("0123456789abcdef01234567", ⟨"Title here", "", "pending", "a1"⟩)] "b1"
      "0123456789abcdef01234567" =
      .error (.customException "Task not found or access denied" 404) :=
  (C2_get_task_characterization
      [("0123456789abcdef01234567", ⟨"Title here", "", "pending", "a1"⟩)] "b1"
      "0123456789abcdef01234567").2.1 (by decide) (by
    intro d hd
    have hd2 : d = ⟨"Title here", "", "pending", "a1"⟩ :=
      congrArg Prod.snd (List.mem_singleton.mp hd)
    rw [hd2]
    decide)

/-- C6: an update whose `status` value is outside the allowed enum raises
`ValidationError` (400) and leaves the store — in particular the stored
task — exactly as it was. -/
theorem C6_invalid_status_atomic {store : TaskStore} {uid tid : String} {u : Updates}
    {s : String} {d : TaskDoc}
    (hst : u.status? = some s) (hbad : allowedStatuses.contains s = false)
    (hmem : (tid, d) ∈ store) :
    TaskService.update_task store uid tid u =
      (.error (.customException "Invalid status value" 400), store) ∧
    (tid, d) ∈ (TaskService.update_task store uid tid u).2 := by
  have h := @update_task_invalid_status store uid tid u s hst hbad
  exact ⟨h, by rw [h]; exact hmem⟩

/-- C6 witness: `{status: "bogus"}` on an existing task gives a 400 and the
task is still stored unchanged. -/
theorem C6_witness :
    TaskService.update_task
      [("0123456789abcdef01234567", ⟨"Title here", "", "pending", "a1"⟩)] "a1"
      "0123456789abcdef01234567" ⟨none, none, some "bogus"⟩ =
      (.error (.customException "Invalid status value" 400),
       [("0123456789abcdef01234567", ⟨"Title here", "", "pending", "a1"⟩)]) :=
  (@C6_invalid_status_atomic
    [("0123456789abcdef01234567", ⟨"Title here", "", "pending", "a1"⟩)] "a1"
    "0123456789abcdef01234567" ⟨none, none, some "bogus"⟩ "bogus"
    ⟨"Title here", "", "pending", "a1"⟩ rfl (by decide)
    (List.mem_singleton.mpr rfl)).1

/-- C10: the status-enum check runs before the ownership/existence lookup,
so an invalid `status` yields `ValidationError` (400) for EVERY `taskId` —
malformed, absent, or owned by someone else — with the store untouched. -/
theorem C10_status_check_precedes_lookup (store : TaskStore) (uid tid : String)
    (u : Updates) (s : String) (hst : u.status? = some s)
    (hbad : allowedStatuses.contains s = false) :
    TaskService.update_task store uid tid u =
      (.error (.customException "Invalid status value" 400), store) :=
  update_task_invalid_status hst hbad

/-- C10 witness: invalid status beats a malformed id of another user's
store — still a 400, not a 404. -/
theorem C10_witness :
    TaskService.update_task
      [("0123456789abcdef01234567", ⟨"Title here", "", "pending", "a1"⟩)] "b1"
      "zz" ⟨none, none, some "bogus"⟩ =
      (.error (.customException "Invalid status value" 400),
       [("0123456789abcdef01234567", ⟨"Title here", "", "pending", "a1"⟩)]) :=
  C10_status_check_precedes_lookup
    [("0123456789abcdef01234567", ⟨"Title here", "", "pending", "a1"⟩)] "b1" "zz"
    ⟨none, none, some "bogus"⟩ "bogus" rfl (by decide)

/-- C8, counterexample: username `"  a"` has stripped length 1 (< 3) but
raw length 3, so registration succeeds and the user IS persisted,
contradicting the claim that it must fail with `ValidationError`. -/
theorem C8_counterexample :
    route_register [] (some "  a") (some "password") "id1" =
      (.ok ("User created", 201), [("id1", ⟨"  a", generate_password_hash "password"⟩)]) ∧
    (pyStrip "  a").length < 3 :=
  ⟨by rfl, by decide⟩

/-- C8 (amended): registration validates RAW string lengths, without
stripping whitespace: it fails with `ValidationError` (400) and persists
nothing iff the raw username length is < 3 or the raw password length is
< 8. -/
theorem C8_register_raw_length_validation (store : UserStore) (u p id : String) :
    (u.length < 3 →
      route_register store (some u) (some p) id =
        (.error (.customException "Username must be at least 3 characters" 400), store)) ∧
    (3 ≤ u.length → p.length < 8 →
      route_register store (some u) (some p) id =
        (.error (.customException "Password must be at least 8 characters" 400), store)) := by
  constructor
  · intro hu
    simp [route_register, Or.inr hu]
  · intro hu hp
    have hu1 : ¬(u = "" ∨ u.length < 3) := by
      rintro (h | h)
      · rw [h] at hu; exact absurd hu (by decide)
      · omega
    simp [route_register, hu1, Or.inr hp]

/-- C8 witness: both raw-length failure branches at concrete inputs. -/
theorem C8_witness :
    route_register [] (some "ab") (some "password") "id1" =
      (.error (.customException "Username must be at least 3 characters" 400), []) ∧
    route_register [] (some "abc") (some "pw") "id1" =
      (.error (.customException "Password must be at least 8 characters" 400), []) :=
  ⟨(C8_register_raw_length_validation [] "ab" "password" "id1").1 (by decide),
   (C8_register_raw_length_validation [] "abc" "pw" "id1").2 (by decide) (by decide)⟩

/-- C1, counterexample: the claim promises `NotFoundError` for any update
attempt by a non-owner, but a non-owner sending an invalid status gets the
400 `ValidationError` (the status check precedes the lookup), not a 404. -/
theorem C1_counterexample :
    (TaskService.update_task
      [("0123456789abcdef01234567", ⟨"Title here", "", "pending", "a1"⟩)] "b1"
      "0123456789abcdef01234567" ⟨none, none, some "bogus"⟩).1 =
      .error (.customException "Invalid status value" 400) ∧
    (400 : Nat) ≠ 404 :=
  ⟨by rfl, by decide⟩

/-- C1 (amended): for distinct users A and B and a task of A, B's `getTask`
gives the 404 not-found error (identical to the absent case), B's
`listTasks` never lists the task, B's `updateTask` never changes the store
and — whenever its status value passes the enum check — fails with the
same 404, and B's `deleteTask` removes nothing and reports `false`.  (With
an invalid status, `updateTask` fails with 400 instead, per C10.) -/
theorem C1_ownership_scoping {store : TaskStore} {uidA uidB tid : String} {d : TaskDoc}
    (hAB : uidA ≠ uidB) (hnd : NodupKeys store) (hmem : (tid, d) ∈ store)
    (hown : d.user_id = uidA) (hval : isValidObjectId tid = true)
    (hcanon : oidCanon tid = tid) :
    TaskService.get_task_by_id store uidB tid =
      .error (.customException "Task not found or access denied" 404) ∧
    (∀ item ∈ TaskService.get_user_tasks store uidB, item.id ≠ tid) ∧
    (∀ u : Updates, (TaskService.update_task store uidB tid u).2 = store) ∧
    (∀ u : Updates, statusInvalid u = false →
      (TaskService.update_task store uidB tid u).1 =
        .error (.customException "Task not found or access denied" 404)) ∧
    TaskService.delete_task store uidB tid = (.ok false, store) := by
  have hnone : ∀ e : TaskDoc, (oidCanon tid, e) ∈ store → e.user_id ≠ uidB := by
    rw [hcanon]
    intro e he huser
    have hed : e = d := keys_unique hnd he hmem
    exact hAB (hown.symm.trans (hed ▸ huser))
  have hget : TaskService.get_task_by_id store uidB tid =
      .error (.customException "Task not found or access denied" 404) :=
    get_task_by_id_miss hval (tasksFindOne_eq_none_iff.mpr hnone)
  refine ⟨hget, get_user_tasks_id_ne hnd hmem hown hAB, fun u => ?_, fun u hsi => ?_, ?_⟩
  · by_cases hsi : statusInvalid u
    · simp [TaskService.update_task, hsi]
    · rw [update_task_lookup_error (by simpa using hsi) hget]
  · rw [update_task_lookup_error hsi hget]
  · exact delete_task_miss hval hnone

/-- C1 witness: with A = "a1", B = "b1" and one stored task of A, all four
operations seen from B behave as if the task did not exist. -/
theorem C1_witness :
    TaskService.get_task_by_id
      [("00a1b2c3d4e5f6a7b8c9d0e1", ⟨"Title here", "", "pending", "a1"⟩)] "b1"
      "00a1b2c3d4e5f6a7b8c9d0e1" =
      .error (.customException "Task not found or access denied" 404) ∧
    (TaskService.update_task
      [("00a1b2c3d4e5f6a7b8c9d0e1", ⟨"Title here", "", "pending", "a1"⟩)] "b1"
      "00a1b2c3d4e5f6a7b8c9d0e1" ⟨none, none, some "completed"⟩).1 =
      .error (.customException "Task not found or access denied" 404) ∧
    TaskService.delete_task
      [("00a1b2c3d4e5f6a7b8c9d0e1", ⟨"Title here", "", "pending", "a1"⟩)] "b1"
      "00a1b2c3d4e5f6a7b8c9d0e1" =
      (.ok false, [("00a1b2c3d4e5f6a7b8c9d0e1", ⟨"Title here", "", "pending", "a1"⟩)]) := by
  have h := @C1_ownership_scoping
    [("00a1b2c3d4e5f6a7b8c9d0e1", ⟨"Title here", "", "pending", "a1"⟩)]
    "a1" "b1" "00a1b2c3d4e5f6a7b8c9d0e1" ⟨"Title here", "", "pending", "a1"⟩
    (by decide) (by simp [NodupKeys]) (List.mem_singleton.mpr rfl) rfl (by decide) (by decide)
  exact ⟨h.1, h.2.2.2.1 ⟨none, none, some "completed"⟩ (by decide), h.2.2.2.2⟩

/-- C4: creating a valid task and reading it back returns exactly the
inputs; at the route level an omitted `description` is stored as `""` and
an omitted `status` as `"pending"` (the body defaults of `POST /tasks`). -/
theorem C4_create_get_roundtrip {store : TaskStore} {uid title description status newId : String}
    (hv : validate_task_data title status = true)
    (hid : isValidObjectId newId = true) (hcanon : oidCanon newId = newId)
    (hfresh : ∀ kv ∈ store, kv.1 ≠ newId) :
    TaskService.create_task store uid title description status newId =
      (.ok newId, store ++ [(newId, ⟨title, description, status, uid⟩)]) ∧
    TaskService.get_task_by_id (store ++ [(newId, ⟨title, description, status, uid⟩)])
      uid newId = .ok ⟨newId, title, description, status⟩ ∧
    ∀ body : CreateBody, body.title? = some title → body.description? = none →
      body.status? = none →
      (route_create_task store uid body newId).2 =
        store ++ [(newId, ⟨title, "", "pending", uid⟩)] := by
  have hcreate : TaskService.create_task store uid title description status newId =
      (.ok newId, store ++ [(newId, ⟨title, description, status, uid⟩)]) := by
    simp [TaskService.create_task, hv]
  have hfind : tasksFindOne (store ++ [(newId, ⟨title, description, status, uid⟩)])
      newId uid = some ⟨title, description, status, uid⟩ := by
    rw [tasksFindOne_append_fresh hfresh]
    exact if_pos rfl
  have hget : TaskService.get_task_by_id
      (store ++ [(newId, ⟨title, description, status, uid⟩)]) uid newId =
      .ok ⟨newId, title, description, status⟩ := by
    simp [TaskService.get_task_by_id, hid, hfind, hcanon]
  refine ⟨hcreate, hget, fun body hb1 hb2 hb3 => ?_⟩
  have htitle : ¬((pyStrip title).length < 3) := by
    intro h
    rw [validate_task_data, if_pos h] at hv
    cases hv
  have hvp : validate_task_data title "pending" = true := by
    rw [validate_task_data, if_neg htitle]
    decide
  have hlen : newId.length = 24 := by
    have h2 := hid
    simp only [isValidObjectId, Bool.and_eq_true, beq_iff_eq] at h2
    exact h2.1
  have hunpack : unpackPair newId =
      .error (.valueError "too many values to unpack (expected 2)") := by
    rw [unpackPair, if_neg (by omega), if_pos (by omega)]
  simp [route_create_task, hb1, hb2, hb3, hvp, TaskService.create_task, hunpack]

/-- C4 witness: a concrete create/read round-trip with omitted description
and status stored as `""` / `"pending"`. -/
theorem C4_witness :
    TaskService.get_task_by_id [("0123456789abcdef01234567", ⟨"Buy milk", "", "pending", "u1"⟩)]
      "u1" "0123456789abcdef01234567" =
      .ok ⟨"0123456789abcdef01234567", "Buy milk", "", "pending"⟩ ∧
    (route_create_task [] "u1" ⟨some "Buy milk", none, none⟩ "0123456789abcdef01234567").2 =
      [("0123456789abcdef01234567", ⟨"Buy milk", "", "pending", "u1"⟩)] := by
  have h := @C4_create_get_roundtrip [] "u1" "Buy milk" "" "pending"
    "0123456789abcdef01234567" (by decide) (by decide) (by decide) (by simp)
  exact ⟨h.2.1, h.2.2 ⟨some "Buy milk", none, none⟩ rfl rfl rfl⟩

/-- C5: a `{status: s}` partial update on an owned task succeeds, changes
only `status` in the stored document (title, description and owner keep
their prior values), and leaves every other id's lookup unchanged. -/
theorem C5_partial_update_frame {store : TaskStore} {uid tid s : String} {d : TaskDoc}
    (hnd : NodupKeys store) (hmem : (tid, d) ∈ store) (hown : d.user_id = uid)
    (hval : isValidObjectId tid = true) (hcanon : oidCanon tid = tid)
    (hs : allowedStatuses.contains s = true) :
    TaskService.update_task store uid tid ⟨none, none, some s⟩ =
      (.ok ⟨tid, d.title, d.description, s⟩,
       tasksUpdateOne store tid uid ⟨none, none, some s⟩) ∧
    tasksFindOne (tasksUpdateOne store tid uid ⟨none, none, some s⟩) tid uid =
      some ⟨d.title, d.description, s, d.user_id⟩ ∧
    ∀ oid2, oid2 ≠ tid → ∀ uid2,
      tasksFindOne (tasksUpdateOne store tid uid ⟨none, none, some s⟩) oid2 uid2 =
        tasksFindOne store oid2 uid2 := by
  have hsi : statusInvalid ⟨none, none, some s⟩ = false := by
    show (!allowedStatuses.contains s) = false
    rw [hs]
    rfl
  refine ⟨update_task_success hsi hval hcanon hnd hmem hown, ?_, fun oid2 hne uid2 => ?_⟩
  · rw [tasksFindOne_updateOne_self, tasksFindOne_eq_some_of_mem hnd hmem hown]
    rfl
  · exact tasksFindOne_updateOne_other hne

/-- C5 witness: updating only the status of a stored task keeps its title
and description. -/
theorem C5_witness :
    TaskService.update_task
      [("0123456789abcdef01234567", ⟨"Title here", "notes", "pending", "a1"⟩)] "a1"
      "0123456789abcdef01234567" ⟨none, none, some "completed"⟩ =
      (.ok ⟨"0123456789abcdef01234567", "Title here", "notes", "completed"⟩,
       [("0123456789abcdef01234567", ⟨"Title here", "notes", "completed", "a1"⟩)]) := by
  have h := @C5_partial_update_frame
    [("0123456789abcdef01234567", ⟨"Title here", "notes", "pending", "a1"⟩)]
    "a1" "0123456789abcdef01234567" "completed" ⟨"Title here", "notes", "pending", "a1"⟩
    (by simp [NodupKeys]) (List.mem_singleton.mpr rfl) rfl (by decide) (by decide) (by decide)
  exact h.1

/-- C3 (code bug): `POST /tasks` can never answer 201.  The route does
`task_id, error = TaskService.create_task(...)`, but the service returns a
plain 24-character id string, so the tuple unpacking raises `ValueError`
(surfaced as 500 by the global handler) on every valid request; invalid
bodies still get the 400.  This contradicts the route's own docstring and
the 4.4 route table (201 + id). -/
theorem C3_create_route_never_201 (store : TaskStore) (uid : String) (body : CreateBody)
    (newId : String) (hid : isValidObjectId newId = true) :
    (route_create_task store uid body newId).1 =
      .error (.customException "Invalid task data" 400) ∨
    (route_create_task store uid body newId).1 =
      .error (.valueError "too many values to unpack (expected 2)") := by
  have hlen : newId.length = 24 := by
    have h2 := hid
    simp only [isValidObjectId, Bool.and_eq_true, beq_iff_eq] at h2
    exact h2.1
  have hunpack : unpackPair newId =
      .error (.valueError "too many values to unpack (expected 2)") := by
    rw [unpackPair, if_neg (by omega), if_pos (by omega)]
  by_cases hv : validate_task_data ((body.title?).getD "") ((body.status?).getD "pending") = false
  · left
    simp [route_create_task, hv]
  · right
    have hv2 : validate_task_data ((body.title?).getD "") ((body.status?).getD "pending") = true :=
      by simpa using hv
    simp [route_create_task, hv2, TaskService.create_task, hunpack]

/-- C3 witness: a perfectly valid creation request ends in the unpacking
`ValueError`, never in a 201. -/
theorem C3_witness :
    (route_create_task [] "u1" ⟨some "Buy milk", none, some "pending"⟩
      "0123456789abcdef01234567").1 =
      .error (.customException "Invalid task data" 400) ∨
    (route_create_task [] "u1" ⟨some "Buy milk", none, some "pending"⟩
      "0123456789abcdef01234567").1 =
      .error (.valueError "too many values to unpack (expected 2)") :=
  C3_create_route_never_201 [] "u1" ⟨some "Buy milk", none, some "pending"⟩
    "0123456789abcdef01234567" (by decide)

/-- C7: with a fresh username of valid raw length, the first registration
succeeds (201) and stores exactly one record with that username; a second
registration of the same username (any valid password) fails with
`ConflictError` (409) and stores nothing. -/
theorem C7_register_conflict {store : UserStore} {u p p2 id1 id2 : String}
    (hu : 3 ≤ u.length) (hp : 8 ≤ p.length) (hp2 : 8 ≤ p2.length)
    (hfresh : usersFindByUsername store u = none) :
    route_register store (some u) (some p) id1 =
      (.ok ("User created", 201), store ++ [(id1, ⟨u, generate_password_hash p⟩)]) ∧
    countUsername store u = 0 ∧
    countUsername (store ++ [(id1, ⟨u, generate_password_hash p⟩)]) u = 1 ∧
    route_register (store ++ [(id1, ⟨u, generate_password_hash p⟩)]) (some u) (some p2) id2 =
      (.error (.customException "Username already exists" 409),
       store ++ [(id1, ⟨u, generate_password_hash p⟩)]) := by
  have hu0 : ¬(u = "" ∨ u.length < 3) := by
    rintro (h | h)
    · rw [h] at hu; exact absurd hu (by decide)
    · omega
  have hp0 : ¬(p = "" ∨ p.length < 8) := by
    rintro (h | h)
    · rw [h] at hp; exact absurd hp (by decide)
    · omega
  have hp20 : ¬(p2 = "" ∨ p2.length < 8) := by
    rintro (h | h)
    · rw [h] at hp2; exact absurd hp2 (by decide)
    · omega
  have hune : u ≠ "" := fun h => hu0 (Or.inl h)
  have hpne : p ≠ "" := fun h => hp0 (Or.inl h)
  have hp2ne : p2 ≠ "" := fun h => hp20 (Or.inl h)
  have hcount0 : countUsername store u = 0 := by
    rw [countUsername, List.length_eq_zero]
    rw [usersFindByUsername_eq_none_iff] at hfresh
    rw [List.filter_eq_nil_iff]
    intro kv hkv
    simpa using hfresh kv hkv
  have hfind2 : usersFindByUsername (store ++ [(id1, ⟨u, generate_password_hash p⟩)]) u =
      some ⟨u, generate_password_hash p⟩ := by
    rw [usersFindByUsername_append_fresh hfresh]
    exact if_pos rfl
  refine ⟨?_, hcount0, ?_, ?_⟩
  · simp [route_register, hu0, hp0, hune, hpne, User.create, Nat.not_lt.mpr hu,
      Nat.not_lt.mpr hp, hfresh]
  · rw [countUsername_append, hcount0, if_pos rfl]
  · simp [route_register, hu0, hp20, hune, hp2ne, User.create, Nat.not_lt.mpr hu,
      Nat.not_lt.mpr hp2, hfind2]

/-- C7 witness: `register("ann","longpassword")` then
`register("ann","other12345")` — 201 then 409, one stored record. -/
theorem C7_witness :
    route_register [] (some "ann") (some "longpassword") "id1" =
      (.ok ("User created", 201), [("id1", ⟨"ann", generate_password_hash "longpassword"⟩)]) ∧
    countUsername [("id1", ⟨"ann", generate_password_hash "longpassword"⟩)] "ann" = 1 ∧
    route_register [("id1", ⟨"ann", generate_password_hash "longpassword"⟩)]
      (some "ann") (some "other12345") "id2" =
      (.error (.customException "Username already exists" 409),
       [("id1", ⟨"ann", generate_password_hash "longpassword"⟩)]) := by
  have h := @C7_register_conflict [] "ann" "longpassword" "other12345" "id1" "id2"
    (by decide) (by decide) (by decide) rfl
  exact ⟨h.1, h.2.2.1, h.2.2.2⟩

/-- C9, counterexample: the claim says every failure of
`DELETE /tasks/{id}` — a malformed id included — surfaces as
`NotFoundError` (404), but a malformed id raises `bson.errors.InvalidId`
inside the service, uncaught by the route, which the global handler turns
into a 500. -/
theorem C9_counterexample :
    route_delete_task [] "u1" "xyz" = (.error (.invalidId "xyz"), []) ∧
    errorStatus (.invalidId "xyz") = 500 ∧ (500 : Nat) ≠ 404 :=
  ⟨by rfl, by rfl, by decide⟩

/-- C9 (amended): for a WELL-FORMED taskId, `deleteTask` removes the task
iff the stored `ownerId` equals the caller and returns whether a row was
removed; the route reports "nothing removed" as `NotFoundError` (404) and
a removal as 200.  A malformed taskId instead escapes as an uncaught
`InvalidId` (500 at the boundary). -/
theorem C9_delete_owner_scoped {store : TaskStore} {uid tid : String}
    (hval : isValidObjectId tid = true) (hcanon : oidCanon tid = tid)
    (hnd : NodupKeys store) :
    ((∀ d : TaskDoc, (tid, d) ∈ store → d.user_id ≠ uid) →
      TaskService.delete_task store uid tid = (.ok false, store) ∧
      route_delete_task store uid tid =
        (.error (.customException "Task not found" 404), store)) ∧
    (∀ d : TaskDoc, (tid, d) ∈ store → d.user_id = uid →
      (TaskService.delete_task store uid tid).1 = .ok true ∧
      (∀ uid2, tasksFindOne (TaskService.delete_task store uid tid).2 tid uid2 = none) ∧
      route_delete_task store uid tid =
        (.ok ("Task deleted", 200), (TaskService.delete_task store uid tid).2)) := by
  constructor
  · intro hmiss
    have hdel : TaskService.delete_task store uid tid = (.ok false, store) :=
      delete_task_miss hval (by rw [hcanon]; exact hmiss)
    refine ⟨hdel, ?_⟩
    simp [route_delete_task, hdel]
  · intro d hmem hown
    obtain ⟨h1, h2, _⟩ := @tasksDeleteOne_hit store tid uid d hnd hmem hown
    have hdel : TaskService.delete_task store uid tid =
        (.ok (tasksDeleteOne store tid uid).1, (tasksDeleteOne store tid uid).2) := by
      simp [TaskService.delete_task, hval, hcanon]
    refine ⟨by rw [hdel, h1], fun uid2 => ?_, ?_⟩
    · rw [hdel]
      exact h2 uid2
    · rw [route_delete_task, hdel, h1]
      simp

/-- C9 witness: the non-owner's DELETE answers the 404, the owner's DELETE
removes the row and answers 200. -/
theorem C9_witness :
    route_delete_task [("00a1b2c3d4e5f6a7b8c9d0e1", ⟨"Title here", "", "pending", "a1"⟩)]
      "b1" "00a1b2c3d4e5f6a7b8c9d0e1" =
      (.error (.customException "Task not found" 404),
       [("00a1b2c3d4e5f6a7b8c9d0e1", ⟨"Title here", "", "pending", "a1"⟩)]) ∧
    route_delete_task [("00a1b2c3d4e5f6a7b8c9d0e1", ⟨"Title here", "", "pending", "a1"⟩)]
      "a1" "00a1b2c3d4e5f6a7b8c9d0e1" =
      (.ok ("Task deleted", 200), []) := by
  have hb := @C9_delete_owner_scoped
    [("00a1b2c3d4e5f6a7b8c9d0e1", ⟨"Title here", "", "pending", "a1"⟩)]
    "b1" "00a1b2c3d4e5f6a7b8c9d0e1"
    (by decide) (by decide) (by simp [NodupKeys])
  have ha := @C9_delete_owner_scoped
    [("00a1b2c3d4e5f6a7b8c9d0e1", ⟨"Title here", "", "pending", "a1"⟩)]
    "a1" "00a1b2c3d4e5f6a7b8c9d0e1"
    (by decide) (by decide) (by simp [NodupKeys])
  constructor
  · refine (hb.1 ?_).2
    intro d hd
    have hd2 : d = ⟨"Title here", "", "pending", "a1"⟩ :=
      congrArg Prod.snd (List.mem_singleton.mp hd)
    rw [hd2]
    decide
  · have h3 := (ha.2 ⟨"Title here", "", "pending", "a1"⟩ (List.mem_singleton.mpr rfl) rfl).2.2
    rw [h3]
    rfl
